import Mathlib

/-!
Shallow embedding of `src/api.rs` of rescrv/chromadb-rs: the bounded client
pool, the auth-header strategy, the request dispatcher and the identity
resolver.  Pure data (requests, responses, auth methods) are translated to
Lean structures; the pool's mutable state becomes an explicit `PoolState`
threaded through step functions; the network is a `Transport` function
parameter; `assert!` panics are modelled as `Option`/a `panicked` outcome;
`anyhow` errors are the formatted strings the code builds.
-/

namespace ChromaApi

/-! ## Base64 (the `BASE64_STANDARD.encode` dependency) -/

/-- The standard base64 alphabet, as used by `BASE64_STANDARD`. -/
def base64Alphabet : List Char :=
  "ABCDEFGHIJKLMNOPQRSTUVWXYZabcdefghijklmnopqrstuvwxyz0123456789+/".toList

def base64Char (n : Nat) : Char := base64Alphabet.getD n 'A'

/-- Standard base64 encoding of a byte list, with `=` padding. -/
def base64Encode : List Nat → String
  | b1 :: b2 :: b3 :: rest =>
      String.mk [base64Char (b1 / 4), base64Char (b1 % 4 * 16 + b2 / 16),
                 base64Char (b2 % 16 * 4 + b3 / 64), base64Char (b3 % 64)]
        ++ base64Encode rest
  | [b1, b2] =>
      String.mk [base64Char (b1 / 4), base64Char (b1 % 4 * 16 + b2 / 16),
                 base64Char (b2 % 16 * 4)] ++ "="
  | [b1] =>
      String.mk [base64Char (b1 / 4), base64Char (b1 % 4 * 16)] ++ "=="
  | [] => ""

/-- Bytes of a string; the credentials in the spec are ASCII, where the
UTF-8 bytes are exactly the code points. -/
def strBytes (s : String) : List Nat := s.toList.map Char.toNat

/-! ## Auth strategy (`ChromaTokenHeader`, `ChromaAuthMethod`) -/

inductive ChromaTokenHeader where
  | Authorization
  | XChromaToken
deriving DecidableEq

inductive ChromaAuthMethod where
  | None
  | BasicAuth (username password : String)
  | TokenAuth (token : String) (header : ChromaTokenHeader)
deriving DecidableEq

/-! ## Requests and responses -/

/-- A `reqwest::RequestBuilder`, reduced to the data the code sets on it:
method, URL, accumulated headers, optional serialized body. -/
structure Request where
  method : String
  url : String
  headers : List (String × String)
  body : Option String
deriving DecidableEq

/-- `request.header(k, v)` appends one header. -/
def Request.header (r : Request) (k v : String) : Request :=
  { r with headers := r.headers ++ [(k, v)] }

/-- The `match &auth_method { ... }` block of `send_request_no_self`. -/
def applyAuth (r : Request) (auth : ChromaAuthMethod) : Request :=
  match auth with
  | .None => r
  | .BasicAuth u p =>
      r.header "Authorization" ("Basic " ++ base64Encode (strBytes (u ++ ":" ++ p)))
  | .TokenAuth t .Authorization => r.header "Authorization" ("Bearer " ++ t)
  | .TokenAuth t .XChromaToken => r.header "X-Chroma-Token" t

/-- The `if let Some(body) = json_body { ... }` block of
`send_request_no_self`: sets `Content-Type` and the serialized payload. -/
def addJsonBody (r : Request) (json_body : Option String) : Request :=
  match json_body with
  | some b => { r.header "Content-Type" "application/json" with body := some b }
  | none => r

/-- A transport-level response, with its body already read as text. -/
structure HttpResponse where
  status : Nat
  body : String
deriving DecidableEq

/-- `reqwest::StatusCode::is_success`: status in `200..=299`. -/
def isSuccess (status : Nat) : Bool := decide (200 ≤ status ∧ status ≤ 299)

/-- The network: `request.send().await`.  `.error` is a transport error
raised before any status code was obtained (the `?` path). -/
def Transport : Type := Request → Except String HttpResponse

/-- The `anyhow::bail!("{} {}: {}", ...)` message: numeric code, canonical
reason phrase (`"Unknown"` when none), body text.  `reason` models
`StatusCode::canonical_reason` of the http crate. -/
def statusMessage (reason : Nat → Option String) (status : Nat) (body : String) : String :=
  Nat.repr status ++ " " ++ (reason status).getD "Unknown" ++ ": " ++ body

/-- `APIClientAsync::send_request_no_self`: apply auth headers, add the
JSON body, send, classify by status. -/
def send_request_no_self (transport : Transport) (reason : Nat → Option String)
    (request : Request) (auth_method : ChromaAuthMethod) (json_body : Option String) :
    Except String HttpResponse :=
  let request := applyAuth request auth_method
  let request := addJsonBody request json_body
  match transport request with
  | .error e => .error e
  | .ok response =>
      if isSuccess response.status then .ok response
      else .error (statusMessage reason response.status response.body)

/-! ## The client pool

`APIClientAsync` keeps a `VecDeque<Arc<Client>>` behind a mutex, an atomic
`connections_alloc` counter and the constant `connections_total` cap.
Handles are modelled by the `Nat` ids `0, 1, 2, ...` in creation order;
the front of the `VecDeque` is the head of `queue`.  Handles currently on
loan to an in-flight request are in `loans`.  Each constructor of `PoolOp`
is one atomic critical section of the source (a queue operation under the
mutex, or a successful compare-and-swap of the counter), so interleaved
concurrent executions are exactly the sequences of `PoolOp`s. -/

structure PoolState where
  queue : List Nat
  loans : List Nat
  alloc : Nat
  total : Nat
  nextId : Nat
deriving DecidableEq

/-- `APIClientAsync::new`: the pool is pre-populated with
`(0..128).map(|_| Arc::new(Client::new()))`, the allocation counter starts
at 0, and the cap is the caller's `connections`. -/
def PoolState.new (connections : Nat) : PoolState :=
  { queue := List.range 128, loans := [], alloc := 0, total := connections, nextId := 128 }

/-- One pass of the acquisition loop in `send_request`: pop the front of
the queue if non-empty; otherwise allocate a fresh client when
`connections_alloc < connections_total` (successful compare-and-swap);
otherwise `none` — the caller blocks on `await_connection.notified()`. -/
def tryAcquire (s : PoolState) : Option (Nat × PoolState) :=
  match s.queue with
  | c :: rest => some (c, { s with queue := rest, loans := c :: s.loans })
  | [] =>
      if s.alloc < s.total then
        some (s.nextId,
              { s with alloc := s.alloc + 1, nextId := s.nextId + 1,
                       loans := s.nextId :: s.loans })
      else none

/-- The release block of `send_request`: `pool.push_front(client)` (and
`notify_one`, which has no effect on the state itself). -/
def releaseHandle (s : PoolState) (c : Nat) : PoolState :=
  { s with queue := c :: s.queue, loans := s.loans.erase c }

inductive PoolOp where
  | acquire
  | release (c : Nat)

/-- One atomic pool transition.  A blocked acquire and a release of a
handle not on loan leave the state unchanged. -/
def poolStep (s : PoolState) : PoolOp → PoolState
  | .acquire =>
      match tryAcquire s with
      | some (_, s1) => s1
      | none => s
  | .release c => if c ∈ s.loans then releaseHandle s c else s

def poolRun (s : PoolState) : List PoolOp → PoolState
  | [] => s
  | op :: ops => poolRun (poolStep s op) ops

/-- Live client handles: idle in the queue plus on loan. -/
def liveHandles (s : PoolState) : Nat := s.queue.length + s.loans.length

/-- The pool's capacity to serve acquires: idle handles plus the
allocations still allowed below the cap. -/
def poolAvailable (s : PoolState) : Nat := s.queue.length + (s.total - s.alloc)

/-- The state invariant maintained by the pool: the compare-and-swap
guard keeps `connections_alloc` at or below `connections_total`, and the
live handles are exactly the 128 pre-created ones plus the allocations. -/
def poolInv (s : PoolState) : Prop :=
  s.alloc ≤ s.total ∧ liveHandles s = 128 + s.alloc

/-! ## The dispatcher (`send_request`) and the public endpoints -/

/-- `APIClientAsync::send_request`: acquire a client (`none` when the
acquire loop would block with no releaser in sight), build the request,
run `send_request_no_self`, then push the client back and return the
result — the release happens on the error path too. -/
def send_request (transport : Transport) (reason : Nat → Option String)
    (auth : ChromaAuthMethod) (s : PoolState) (method url : String)
    (json_body : Option String) :
    Option (Except String HttpResponse × PoolState) :=
  match tryAcquire s with
  | none => none
  | some (client, s1) =>
      let request : Request := { method := method, url := url, headers := [], body := none }
      let res := send_request_no_self transport reason request auth json_body
      some (res, releaseHandle s1 client)

/-- The configuration fields `APIClientAsync::new` derives from its
arguments: `api_endpoint = endpoint + "/api/v2"`,
`api_endpoint_v1 = endpoint + "/api/v1"`, plus tenant and database. -/
structure ClientConfig where
  api_endpoint : String
  api_endpoint_v1 : String
  tenant : String
  database : String
deriving DecidableEq

def mkConfig (endpoint tenant database : String) : ClientConfig :=
  { api_endpoint := endpoint ++ "/api/v2", api_endpoint_v1 := endpoint ++ "/api/v1",
    tenant := tenant, database := database }

/-- Rust's `path.starts_with('/')`: the first character is `'/'`. -/
def startsWithSlash (path : String) : Bool := path.toList.head? == some '/'

/-- `APIClientAsync::database_url`: `assert!(path.starts_with('/'))`
(modelled as `none` = panic) then the database-scoped URL. -/
def database_url (cfg : ClientConfig) (path : String) : Option String :=
  if startsWithSlash path then
    some (cfg.api_endpoint ++ "/tenants/" ++ cfg.tenant ++ "/databases/"
            ++ cfg.database ++ path)
  else none

/-- The URL built by `get_v1`, behind the same assertion. -/
def get_v1_url (cfg : ClientConfig) (path : String) : Option String :=
  if startsWithSlash path then some (cfg.api_endpoint_v1 ++ path) else none

/-- Result of a public endpoint call: the assertion panicked before the
pool was touched, the acquire loop blocked, or the dispatch completed
with a result and the pool's new state. -/
inductive CallOutcome where
  | panicked
  | blocked
  | completed (res : Except String HttpResponse) (s : PoolState)

/-- Shared shape of the public endpoints: the URL (with its assertion) is
computed first; a failed assertion panics before any pool acquisition or
network activity. -/
def endpointCall (transport : Transport) (reason : Nat → Option String)
    (auth : ChromaAuthMethod) (s : PoolState) (method : String)
    (urlOpt : Option String) (json_body : Option String) : CallOutcome :=
  match urlOpt with
  | none => .panicked
  | some url =>
      match send_request transport reason auth s method url json_body with
      | none => .blocked
      | some (res, s1) => .completed res s1

def get_database (transport : Transport) (reason : Nat → Option String)
    (auth : ChromaAuthMethod) (cfg : ClientConfig) (s : PoolState)
    (path : String) : CallOutcome :=
  endpointCall transport reason auth s "GET" (database_url cfg path) none

def post_database (transport : Transport) (reason : Nat → Option String)
    (auth : ChromaAuthMethod) (cfg : ClientConfig) (s : PoolState)
    (path : String) (json_body : Option String) : CallOutcome :=
  endpointCall transport reason auth s "POST" (database_url cfg path) json_body

def put_database (transport : Transport) (reason : Nat → Option String)
    (auth : ChromaAuthMethod) (cfg : ClientConfig) (s : PoolState)
    (path : String) (json_body : Option String) : CallOutcome :=
  endpointCall transport reason auth s "PUT" (database_url cfg path) json_body

def delete_database (transport : Transport) (reason : Nat → Option String)
    (auth : ChromaAuthMethod) (cfg : ClientConfig) (s : PoolState)
    (path : String) : CallOutcome :=
  endpointCall transport reason auth s "DELETE" (database_url cfg path) none

def get_v1 (transport : Transport) (reason : Nat → Option String)
    (auth : ChromaAuthMethod) (cfg : ClientConfig) (s : PoolState)
    (path : String) : CallOutcome :=
  endpointCall transport reason auth s "GET" (get_v1_url cfg path) none

/-! ## Identity resolver (`get_auth`) -/

structure UserIdentity where
  tenant : String
  databases : List String
deriving DecidableEq

def identityPath : String := "/api/v2/auth/identity"

/-- `APIClientAsync::get_auth`: a one-shot GET with a freshly created
client (no pool state is involved at all), the shared
`send_request_no_self`, then `resp.json()` modelled by `parseIdentity`. -/
def get_auth (transport : Transport) (reason : Nat → Option String)
    (parseIdentity : String → Except String UserIdentity)
    (url : String) (auth : ChromaAuthMethod) : Except String UserIdentity :=
  let url := url ++ identityPath
  let request : Request := { method := "GET", url := url, headers := [], body := none }
  match send_request_no_self transport reason request auth none with
  | .error e => .error e
  | .ok resp => parseIdentity resp.body

/-! ## Pool lemmas -/

/-! ## Pool lemmas -/

/-- Shape of a successful acquisition: either the front of the queue was
popped, or the queue was empty and a fresh handle was allocated below the
cap.  Either way the handle moves onto the loan list. -/
theorem tryAcquire_spec (s : PoolState) (c : Nat) (s1 : PoolState)
    (h : tryAcquire s = some (c, s1)) :
    s1.total = s.total ∧ s1.loans = c :: s.loans ∧
    ((s.queue = c :: s1.queue ∧ s1.alloc = s.alloc) ∨
     (s.queue = [] ∧ s1.queue = [] ∧ s.alloc < s.total ∧
        s1.alloc = s.alloc + 1 ∧ c = s.nextId)) := by
  unfold tryAcquire at h
  cases hq : s.queue with
  | cons d rest =>
    rw [hq] at h
    simp only [Option.some.injEq, Prod.mk.injEq] at h
    obtain ⟨hc, hs1⟩ := h
    subst hc
    subst hs1
    exact ⟨rfl, rfl, Or.inl ⟨rfl, rfl⟩⟩
  | nil =>
    rw [hq] at h
    by_cases hlt : s.alloc < s.total
    · simp only [if_pos hlt, Option.some.injEq, Prod.mk.injEq] at h
      obtain ⟨hc, hs1⟩ := h
      subst hs1
      exact ⟨rfl, by rw [hc], Or.inr ⟨rfl, rfl, hlt, rfl, hc.symm⟩⟩
    · rw [if_neg hlt] at h
      exact Option.noConfusion h

theorem poolStep_acquire (s : PoolState) :
    poolStep s .acquire = match tryAcquire s with
      | some (_, s1) => s1
      | none => s := rfl

theorem poolStep_release (s : PoolState) (c : Nat) :
    poolStep s (.release c) = if c ∈ s.loans then releaseHandle s c else s := rfl

theorem poolInv_new (M : Nat) : poolInv (PoolState.new M) := by
  refine ⟨Nat.zero_le M, ?_⟩
  simp [liveHandles, PoolState.new]

theorem total_poolStep (s : PoolState) (op : PoolOp) : (poolStep s op).total = s.total := by
  cases op with
  | acquire =>
    rw [poolStep_acquire]
    cases h : tryAcquire s with
    | none => rfl
    | some cs =>
      obtain ⟨c, s1⟩ := cs
      exact (tryAcquire_spec s c s1 h).1
  | release c =>
    rw [poolStep_release]
    by_cases hc : c ∈ s.loans
    · rw [if_pos hc]; rfl
    · rw [if_neg hc]

theorem total_poolRun (s : PoolState) (ops : List PoolOp) :
    (poolRun s ops).total = s.total := by
  induction ops generalizing s with
  | nil => rfl
  | cons op ops ih => rw [poolRun, ih, total_poolStep]

theorem poolInv_step (s : PoolState) (op : PoolOp) (h : poolInv s) :
    poolInv (poolStep s op) := by
  obtain ⟨h1, h2⟩ := h
  unfold liveHandles at h2
  cases op with
  | acquire =>
    rw [poolStep_acquire]
    cases hacq : tryAcquire s with
    | none => exact ⟨h1, h2⟩
    | some cs =>
      obtain ⟨c, s1⟩ := cs
      obtain ⟨ht, hl, hcase⟩ := tryAcquire_spec s c s1 hacq
      have hll : s1.loans.length = s.loans.length + 1 := by rw [hl]; rfl
      show s1.alloc ≤ s1.total ∧ liveHandles s1 = 128 + s1.alloc
      constructor
      · rcases hcase with ⟨-, ha⟩ | ⟨-, -, hlt, ha, -⟩ <;> rw [ha, ht] <;> omega
      · unfold liveHandles
        rcases hcase with ⟨hq, ha⟩ | ⟨hq, hq1, -, ha, -⟩
        · have hq2 : s.queue.length = s1.queue.length + 1 := by rw [hq]; rfl
          omega
        · have hq2 : s.queue.length = 0 := by rw [hq]; rfl
          have hq3 : s1.queue.length = 0 := by rw [hq1]; rfl
          omega
  | release c =>
    rw [poolStep_release]
    by_cases hc : c ∈ s.loans
    · rw [if_pos hc]
      have he : (s.loans.erase c).length = s.loans.length - 1 :=
        List.length_erase_of_mem hc
      have hpos : 0 < s.loans.length :=
        List.length_pos.mpr (List.ne_nil_of_mem hc)
      refine ⟨h1, ?_⟩
      simp only [liveHandles, releaseHandle, List.length_cons]
      omega
    · rw [if_neg hc]; exact ⟨h1, h2⟩

theorem poolInv_run (s : PoolState) (ops : List PoolOp) (h : poolInv s) :
    poolInv (poolRun s ops) := by
  induction ops generalizing s with
  | nil => exact h
  | cons op ops ih => exact ih _ (poolInv_step s op h)

theorem liveHandles_poolStep_le (s : PoolState) (op : PoolOp) :
    liveHandles s ≤ liveHandles (poolStep s op) := by
  cases op with
  | acquire =>
    rw [poolStep_acquire]
    cases hacq : tryAcquire s with
    | none => exact Nat.le_refl _
    | some cs =>
      obtain ⟨c, s1⟩ := cs
      obtain ⟨-, hl, hcase⟩ := tryAcquire_spec s c s1 hacq
      have hll : s1.loans.length = s.loans.length + 1 := by rw [hl]; rfl
      show liveHandles s ≤ liveHandles s1
      unfold liveHandles
      rcases hcase with ⟨hq, -⟩ | ⟨hq, -, -, -, -⟩
      · have hq2 : s.queue.length = s1.queue.length + 1 := by rw [hq]; rfl
        omega
      · have hq2 : s.queue.length = 0 := by rw [hq]; rfl
        omega
  | release c =>
    rw [poolStep_release]
    by_cases hc : c ∈ s.loans
    · rw [if_pos hc]
      have he : (s.loans.erase c).length = s.loans.length - 1 :=
        List.length_erase_of_mem hc
      simp only [liveHandles, releaseHandle, List.length_cons]
      omega
    · rw [if_neg hc]

theorem liveHandles_poolRun_le (s : PoolState) (ops : List PoolOp) :
    liveHandles s ≤ liveHandles (poolRun s ops) := by
  induction ops generalizing s with
  | nil => exact Nat.le_refl _
  | cons op ops ih =>
    exact Nat.le_trans (liveHandles_poolStep_le s op) (ih (poolStep s op))

/-- A full acquire/release round trip leaves the pool's available
capacity and loan list as they were, with the handle back in the queue. -/
theorem acquire_release_restores (s s1 : PoolState) (c : Nat)
    (h : tryAcquire s = some (c, s1)) :
    poolAvailable (releaseHandle s1 c) = poolAvailable s ∧
    (releaseHandle s1 c).loans = s.loans ∧
    s.queue.length ≤ (releaseHandle s1 c).queue.length ∧
    0 < (releaseHandle s1 c).queue.length := by
  obtain ⟨ht, hl, hcase⟩ := tryAcquire_spec s c s1 h
  refine ⟨?_, ?_, ?_, ?_⟩
  · simp only [poolAvailable, releaseHandle, List.length_cons]
    rw [ht]
    rcases hcase with ⟨hq, ha⟩ | ⟨hq, hq1, hlt, ha, -⟩
    · have hq2 : s.queue.length = s1.queue.length + 1 := by rw [hq]; rfl
      omega
    · have hq2 : s.queue.length = 0 := by rw [hq]; rfl
      have hq3 : s1.queue.length = 0 := by rw [hq1]; rfl
      omega
  · simp only [releaseHandle]
    rw [hl, List.erase_cons_head]
  · simp only [releaseHandle, List.length_cons]
    rcases hcase with ⟨hq, -⟩ | ⟨hq, -, -, -, -⟩
    · have hq2 : s.queue.length = s1.queue.length + 1 := by rw [hq]; rfl
      omega
    · have hq2 : s.queue.length = 0 := by rw [hq]; rfl
      omega
  · simp only [releaseHandle, List.length_cons]
    omega

/-- When the allocation cap is exhausted, an acquire blocks exactly when
the idle queue is empty. -/
theorem tryAcquire_eq_none_iff (s : PoolState) (hcap : ¬ s.alloc < s.total) :
    tryAcquire s = none ↔ s.queue = [] := by
  unfold tryAcquire
  cases hq : s.queue with
  | nil => simp [hcap]
  | cons c rest => simp

/-! ## Claims -/

set_option maxRecDepth 4000 in
/-- C1 (counterexample): the claim that the total number of live client
handles never exceeds the configured maximum `M` fails at `M = 0`: the
freshly constructed pool already holds 128 pre-created handles. -/
theorem c1_counterexample : ¬ (liveHandles (PoolState.new 0) ≤ 0) := by decide

/-- C1 (amended): in every state reachable by acquire/release traces from
a pool constructed with maximum `M`, the allocation counter never exceeds
`M`, and the live handles are exactly the 128 pre-created ones plus the
counter — hence at most `128 + M`, not `M`. -/
theorem c1_alloc_le_max (M : Nat) (ops : List PoolOp) :
    (poolRun (PoolState.new M) ops).alloc ≤ M ∧
    liveHandles (poolRun (PoolState.new M) ops) =
      128 + (poolRun (PoolState.new M) ops).alloc ∧
    liveHandles (poolRun (PoolState.new M) ops) ≤ 128 + M := by
  obtain ⟨h1, h2⟩ := poolInv_run _ ops (poolInv_new M)
  have ht : (poolRun (PoolState.new M) ops).total = M := total_poolRun _ _
  exact ⟨by omega, h2, by omega⟩

/-- C2 (counterexample): the claim that after a failed dispatch the number
of handles held by the pool equals the number before acquisition fails
when the dispatch allocated a fresh handle: from an empty queue with cap
1, a failed dispatch leaves one handle in the queue where there were
zero. -/
theorem c2_counterexample :
    send_request (fun _ => .error "boom") (fun _ => none) .None
        ⟨[], [], 0, 1, 0⟩ "GET" "http://x" none
      = some (.error "boom", ⟨[0], [], 1, 1, 1⟩) ∧
    (⟨[0], [], 1, 1, 1⟩ : PoolState).queue.length ≠
      (⟨[], [], 0, 1, 0⟩ : PoolState).queue.length :=
  ⟨rfl, by decide⟩

/-- C2 (amended): a dispatch whose send step fails still pushes its handle
back onto the idle queue before the error is propagated: afterwards no
handle is left on loan beyond what was on loan before, the pool's
available capacity (idle handles plus remaining allocatable slots) is
unchanged, and the idle queue is at least as long as before acquisition
(one longer exactly when the handle was freshly allocated). -/
theorem c2_release_on_error (transport : Transport) (reason : Nat → Option String)
    (auth : ChromaAuthMethod) (s s1 : PoolState) (method url : String)
    (json_body : Option String) (e : String)
    (h : send_request transport reason auth s method url json_body = some (.error e, s1)) :
    poolAvailable s1 = poolAvailable s ∧ s1.loans = s.loans ∧
    s.queue.length ≤ s1.queue.length ∧ 0 < s1.queue.length := by
  unfold send_request at h
  cases hacq : tryAcquire s with
  | none => rw [hacq] at h; exact Option.noConfusion h
  | some cs =>
    obtain ⟨c, sa⟩ := cs
    rw [hacq] at h
    simp only [Option.some.injEq, Prod.mk.injEq] at h
    obtain ⟨-, hs1⟩ := h
    rw [← hs1]
    exact acquire_release_restores s sa c hacq

/-- C2 witness: a concrete failed dispatch through a one-handle pool. -/
theorem c2_release_on_error_witness :
    poolAvailable (⟨[5], [], 0, 0, 6⟩ : PoolState) =
      poolAvailable (⟨[5], [], 0, 0, 6⟩ : PoolState) ∧
    (⟨[5], [], 0, 0, 6⟩ : PoolState).loans = (⟨[5], [], 0, 0, 6⟩ : PoolState).loans ∧
    (⟨[5], [], 0, 0, 6⟩ : PoolState).queue.length ≤
      (⟨[5], [], 0, 0, 6⟩ : PoolState).queue.length ∧
    0 < (⟨[5], [], 0, 0, 6⟩ : PoolState).queue.length :=
  c2_release_on_error (fun _ => .error "boom") (fun _ => none) .None
    ⟨[5], [], 0, 0, 6⟩ ⟨[5], [], 0, 0, 6⟩ "GET" "http://x" none "boom" rfl

/-- C3: the auth step adds exactly the spec's headers and no others:
no header for `None`; `Authorization: Basic base64(u:p)` for basic auth;
`Authorization: Bearer t` or `X-Chroma-Token: t` for token auth depending
on the header kind (and in the latter case the `Authorization` headers are
exactly those already present); base64 of `alice:secret` is the spec's
`YWxpY2U6c2VjcmV0`. -/
theorem c3_auth_header_mapping (r : Request) (u p t : String) :
    (applyAuth r .None).headers = r.headers ∧
    (applyAuth r (.BasicAuth u p)).headers =
      r.headers ++ [("Authorization", "Basic " ++ base64Encode (strBytes (u ++ ":" ++ p)))] ∧
    (applyAuth r (.TokenAuth t .Authorization)).headers =
      r.headers ++ [("Authorization", "Bearer " ++ t)] ∧
    (applyAuth r (.TokenAuth t .XChromaToken)).headers =
      r.headers ++ [("X-Chroma-Token", t)] ∧
    ((applyAuth r (.TokenAuth t .XChromaToken)).headers.filter
        fun kv => kv.1 == "Authorization") =
      (r.headers.filter fun kv => kv.1 == "Authorization") ∧
    (applyAuth r (.BasicAuth "alice" "secret")).headers =
      r.headers ++ [("Authorization", "Basic YWxpY2U6c2VjcmV0")] := by
  refine ⟨rfl, rfl, rfl, rfl, ?_, rfl⟩
  show ((r.headers ++ [("X-Chroma-Token", t)]).filter fun kv => kv.1 == "Authorization") = _
  rw [List.filter_append]
  have hfalse : ((("X-Chroma-Token", t) : String × String).1 == "Authorization") = false := rfl
  simp [List.filter, hfalse]

/-- C4: given a transport-level response, the dispatcher succeeds with the
live response exactly when the status is in the 2xx success range, and
otherwise errors with the message built from the numeric code, the
canonical reason phrase (`"Unknown"` when none) and the body text. -/
theorem c4_outcome_classification (transport : Transport) (reason : Nat → Option String)
    (request : Request) (auth : ChromaAuthMethod) (json_body : Option String)
    (resp : HttpResponse)
    (h : transport (addJsonBody (applyAuth request auth) json_body) = .ok resp) :
    send_request_no_self transport reason request auth json_body =
      (if isSuccess resp.status then Except.ok resp
       else Except.error (statusMessage reason resp.status resp.body)) ∧
    (isSuccess resp.status = true ↔ 200 ≤ resp.status ∧ resp.status ≤ 299) := by
  constructor
  · show (match transport (addJsonBody (applyAuth request auth) json_body) with
          | .error e => Except.error e
          | .ok response =>
              if isSuccess response.status then Except.ok response
              else Except.error (statusMessage reason response.status response.body)) = _
    rw [h]
  · simp [isSuccess]

/-- C4 witness: a 404 with body `not found` yields the structured error
`404 Not Found: not found`; a 200 yields the live response. -/
theorem c4_outcome_classification_witness :
    send_request_no_self (fun _ => .ok ⟨404, "not found"⟩) (fun _ => some "Not Found")
        ⟨"GET", "http://x", [], none⟩ .None none = .error "404 Not Found: not found" ∧
    send_request_no_self (fun _ => .ok ⟨200, "ok"⟩) (fun _ => some "OK")
        ⟨"GET", "http://x", [], none⟩ .None none = .ok ⟨200, "ok"⟩ :=
  ⟨((c4_outcome_classification (fun _ => Except.ok ⟨404, "not found"⟩)
      (fun _ => some "Not Found") ⟨"GET", "http://x", [], none⟩ .None none
      ⟨404, "not found"⟩ rfl).1).trans (by rfl),
   ((c4_outcome_classification (fun _ => Except.ok ⟨200, "ok"⟩)
      (fun _ => some "OK") ⟨"GET", "http://x", [], none⟩ .None none
      ⟨200, "ok"⟩ rfl).1).trans (by rfl)⟩

/-- C5 (counterexample): with a configured maximum of 0 an acquire does
NOT block forever: the first acquire on a fresh pool succeeds immediately
from the 128 pre-created handles. -/
theorem c5_counterexample : tryAcquire (PoolState.new 0) ≠ none := by decide

/-- C5 (amended): with maximum 0 no handle is ever allocated, and an
acquire blocks exactly when the idle queue is empty; since a fresh pool
starts with 128 idle handles, acquires block only once all 128 are on
loan. -/
theorem c5_zero_max_blocks (ops : List PoolOp) :
    (poolRun (PoolState.new 0) ops).alloc = 0 ∧
    (tryAcquire (poolRun (PoolState.new 0) ops) = none ↔
      (poolRun (PoolState.new 0) ops).queue = []) := by
  obtain ⟨h1, -⟩ := poolInv_run _ ops (poolInv_new 0)
  have ht : (poolRun (PoolState.new 0) ops).total = 0 := total_poolRun _ _
  have ha : (poolRun (PoolState.new 0) ops).alloc = 0 := by omega
  exact ⟨ha, tryAcquire_eq_none_iff _ (by omega)⟩

set_option maxRecDepth 4000 in
/-- C6 (counterexample): handles are not created lazily on first need:
the freshly constructed pool already holds 128 live handles before any
acquire. -/
theorem c6_counterexample : liveHandles (PoolState.new 5) ≠ 0 := by decide

/-- C6 (amended): the constructor eagerly creates 128 handles; beyond
those, a handle is allocated only when the idle queue is empty (an
acquire from a non-empty queue does not change the allocation counter);
and no handle is ever destroyed — the live-handle count never decreases
across any pool transition, and never drops below the initial 128. -/
theorem c6_prepopulation_no_eviction (M : Nat) (s : PoolState) (op : PoolOp)
    (ops : List PoolOp) :
    liveHandles (PoolState.new M) = 128 ∧
    liveHandles s ≤ liveHandles (poolStep s op) ∧
    liveHandles (PoolState.new M) ≤ liveHandles (poolRun (PoolState.new M) ops) ∧
    (s.queue ≠ [] → (poolStep s .acquire).alloc = s.alloc) := by
  refine ⟨by simp [liveHandles, PoolState.new], liveHandles_poolStep_le s op,
    liveHandles_poolRun_le _ ops, ?_⟩
  intro hne
  rw [poolStep_acquire]
  cases hq : s.queue with
  | nil => exact absurd hq hne
  | cons c rest =>
    have hacq : tryAcquire s = some (c, { s with queue := rest, loans := c :: s.loans }) := by
      unfold tryAcquire
      rw [hq]
    rw [hacq]

/-- C6 witness: a fresh pool holds 128 handles, and an acquire from a
one-element queue leaves the allocation counter unchanged. -/
theorem c6_prepopulation_no_eviction_witness :
    liveHandles (PoolState.new 1) = 128 ∧
    (poolStep (⟨[9], [], 0, 1, 10⟩ : PoolState) .acquire).alloc =
      (⟨[9], [], 0, 1, 10⟩ : PoolState).alloc :=
  ⟨(c6_prepopulation_no_eviction 1 ⟨[9], [], 0, 1, 10⟩ .acquire []).1,
   (c6_prepopulation_no_eviction 1 ⟨[9], [], 0, 1, 10⟩ .acquire []).2.2.2 (by decide)⟩

/-- C7 (counterexample): the idle collection is not FIFO.  On a fresh pool
with maximum 2, acquire handles 0 and 1, release 0, then release 1: the
next acquire returns 1 (the most recently released), not the
earliest-released 0. -/
theorem c7_counterexample :
    (tryAcquire (poolRun (PoolState.new 2)
        [.acquire, .acquire, .release 0, .release 1])).map Prod.fst = some 1 ∧
    (tryAcquire (poolRun (PoolState.new 2)
        [.acquire, .acquire, .release 0, .release 1])).map Prod.fst ≠ some 0 := by
  constructor
  · rfl
  · decide

/-- C7 (amended): the idle collection is a LIFO stack: release pushes the
handle on the front of the deque and acquire pops from the front, so an
acquire immediately after a release returns that released handle. -/
theorem c7_lifo_order (s : PoolState) (c : Nat) (h : c ∈ s.loans) :
    (tryAcquire (poolStep s (.release c))).map Prod.fst = some c := by
  rw [poolStep_release, if_pos h]
  rfl

/-- C7 witness: releasing handle 7 and acquiring returns handle 7. -/
theorem c7_lifo_order_witness :
    (tryAcquire (poolStep (⟨[], [7], 1, 1, 8⟩ : PoolState) (.release 7))).map
      Prod.fst = some 7 :=
  c7_lifo_order ⟨[], [7], 1, 1, 8⟩ 7 (by decide)

/-- C8: a present JSON body adds the `Content-Type: application/json`
header and becomes the payload; an absent body adds neither. -/
theorem c8_json_body (r : Request) (b : String) :
    (addJsonBody r (some b)).headers =
      r.headers ++ [("Content-Type", "application/json")] ∧
    (addJsonBody r (some b)).body = some b ∧
    addJsonBody r none = r :=
  ⟨rfl, rfl, rfl⟩

/-- C9: the identity resolver is a single one-shot GET that involves no
pool state, applies the same auth mapping as the dispatcher, targets the
fixed `/api/v2/auth/identity` path appended to the base URL, returns the
parsed `UserIdentity` on success and the dispatcher's structured error on
a non-success status (a transport error propagates unchanged). -/
theorem c9_identity_resolver (transport : Transport) (reason : Nat → Option String)
    (parseIdentity : String → Except String UserIdentity) (base : String)
    (auth : ChromaAuthMethod) :
    get_auth transport reason parseIdentity base auth =
      match transport (applyAuth ⟨"GET", base ++ identityPath, [], none⟩ auth) with
      | .error e => .error e
      | .ok resp =>
          if isSuccess resp.status then parseIdentity resp.body
          else .error (statusMessage reason resp.status resp.body) := by
  have hs : send_request_no_self transport reason
      ⟨"GET", base ++ identityPath, [], none⟩ auth none =
      match transport (applyAuth ⟨"GET", base ++ identityPath, [], none⟩ auth) with
      | .error e => .error e
      | .ok resp =>
          if isSuccess resp.status then Except.ok resp
          else .error (statusMessage reason resp.status resp.body) := rfl
  show (match send_request_no_self transport reason
          ⟨"GET", base ++ identityPath, [], none⟩ auth none with
        | .error e => Except.error e
        | .ok resp => parseIdentity resp.body) = _
  rw [hs]
  cases h : transport (applyAuth ⟨"GET", base ++ identityPath, [], none⟩ auth) with
  | error e => rfl
  | ok resp =>
    show (match (if isSuccess resp.status then Except.ok resp
            else Except.error (statusMessage reason resp.status resp.body)) with
          | Except.error e => Except.error e
          | Except.ok r => parseIdentity r.body) =
        (if isSuccess resp.status then parseIdentity resp.body
         else Except.error (statusMessage reason resp.status resp.body))
    by_cases hsu : isSuccess resp.status
    · rw [if_pos hsu, if_pos hsu]
    · rw [if_neg hsu, if_neg hsu]

/-- C10: every database-scoped operation and `get_v1` panics on a path
that does not start with `/`, before any pool acquisition or network
activity (the outcome is `panicked`, built from the URL check alone);
on a path starting with `/` the request URL is the fixed endpoint prefix
concatenated with the path. -/
theorem c10_path_assertion (transport : Transport) (reason : Nat → Option String)
    (auth : ChromaAuthMethod) (cfg : ClientConfig) (s : PoolState)
    (path : String) (json_body : Option String) :
    (startsWithSlash path = false →
      get_database transport reason auth cfg s path = .panicked ∧
      post_database transport reason auth cfg s path json_body = .panicked ∧
      put_database transport reason auth cfg s path json_body = .panicked ∧
      delete_database transport reason auth cfg s path = .panicked ∧
      get_v1 transport reason auth cfg s path = .panicked) ∧
    (startsWithSlash path = true →
      database_url cfg path = some (cfg.api_endpoint ++ "/tenants/" ++ cfg.tenant
          ++ "/databases/" ++ cfg.database ++ path) ∧
      get_v1_url cfg path = some (cfg.api_endpoint_v1 ++ path) ∧
      get_database transport reason auth cfg s path =
        endpointCall transport reason auth s "GET"
          (some (cfg.api_endpoint ++ "/tenants/" ++ cfg.tenant ++ "/databases/"
            ++ cfg.database ++ path)) none) := by
  constructor
  · intro h
    have hdb : database_url cfg path = none := by simp [database_url, h]
    have hv1 : get_v1_url cfg path = none := by simp [get_v1_url, h]
    exact ⟨by simp [get_database, endpointCall, hdb],
           by simp [post_database, endpointCall, hdb],
           by simp [put_database, endpointCall, hdb],
           by simp [delete_database, endpointCall, hdb],
           by simp [get_v1, endpointCall, hv1]⟩
  · intro h
    have hdb : database_url cfg path = some (cfg.api_endpoint ++ "/tenants/" ++ cfg.tenant
        ++ "/databases/" ++ cfg.database ++ path) := by simp [database_url, h]
    have hv1 : get_v1_url cfg path = some (cfg.api_endpoint_v1 ++ path) := by
      simp [get_v1_url, h]
    exact ⟨hdb, hv1, by rw [get_database, hdb]⟩

/-- C10 witness: a path without a leading slash panics; one with a leading
slash produces the prefixed URL. -/
theorem c10_path_assertion_witness :
    get_database (fun _ => Except.error "e") (fun _ => none) .None
        (mkConfig "http://h" "t" "d") (PoolState.new 1) "nope" = .panicked ∧
    database_url (mkConfig "http://h" "t" "d") "/x" =
      some ("http://h" ++ "/api/v2" ++ "/tenants/" ++ "t" ++ "/databases/"
        ++ "d" ++ "/x") :=
  ⟨((c10_path_assertion (fun _ => Except.error "e") (fun _ => none) .None
      (mkConfig "http://h" "t" "d") (PoolState.new 1) "nope" none).1 (by decide)).1,
   ((c10_path_assertion (fun _ => Except.error "e") (fun _ => none) .None
      (mkConfig "http://h" "t" "d") (PoolState.new 1) "/x" none).2 (by decide)).1⟩

end ChromaApi
